import Mathlib

/-!
Shallow embedding of the indicator / comparison computation pipeline of the
stock-dashboard repository (files `utils.py` and `Stock_Market.py`), together
with theorems checking the specification's claims about it.

Modelling conventions:
* Prices and derived numeric values are rationals (`ℚ`); the Python code uses
  IEEE doubles, and where a float-specific behaviour matters (division by
  zero producing `inf`/`NaN` inside the RSI formula) it is modelled explicitly
  and documented at the definition.
* Timestamps are integers (`Int`): the code strips timezones and merges on
  exact equality of the `Date` column, so only an ordered, decidable identity
  is needed.
* A pandas `DataFrame` holding an OHLCV table plus optional indicator columns
  is a structure whose base rows are a list of bars and whose indicator
  columns are `Option` lists (`none` = the column was never added; an inner
  `none` = a NaN entry inside an existing column).
* External fetches (`yfinance`) are modelled as an `Option (List Bar)`
  argument: `none` is a failed / empty fetch, `some rows` a successful one.
-/

/-- One OHLCV bar: a row of the raw table returned by the quote fetcher. -/
structure Bar where
  Date : Int
  Open : ℚ
  High : ℚ
  Low : ℚ
  Close : ℚ
  Volume : ℚ
deriving DecidableEq, Repr

/-- Entry of a Bollinger-band column, kept in exact symbolic form: it denotes
the real number `mid + coeff * Real.sqrt var`, where `mid` is the 20-bar
rolling mean of the close, `var` the 20-bar rolling sample variance and
`coeff` is `2` for the upper band and `-2` for the lower band (source:
`df["BB_Upper"] = df["SMA20"] + (std * 2)` and
`df["BB_Lower"] = df["SMA20"] - (std * 2)` in `utils.py`). The square root of
a rational is irrational in general, so the entry records the exact rational
data instead of an inexact value; no claim in this development depends on the
numeric value of a Bollinger entry. -/
structure BollEntry where
  mid : ℚ
  coeff : ℚ
  var : ℚ
deriving DecidableEq, Repr

/-- A DataFrame of the pipeline: the base OHLCV rows plus the five optional
derived columns added by `_calculate_indicators` in `utils.py`. The outer
`Option` is column presence (absent vs added); the inner `Option` in each
entry is definedness (NaN vs a value). -/
structure StockDf where
  rows : List Bar
  RSI : Option (List (Option ℚ))
  SMA5 : Option (List (Option ℚ))
  SMA20 : Option (List (Option ℚ))
  BB_Upper : Option (List (Option BollEntry))
  BB_Lower : Option (List (Option BollEntry))
deriving DecidableEq, Repr

/-- A bare OHLCV DataFrame as returned by the quote fetcher: no indicator
column has been added yet. -/
def ohlcvDf (rows : List Bar) : StockDf :=
  { rows := rows, RSI := none, SMA5 := none, SMA20 := none,
    BB_Upper := none, BB_Lower := none }

/-- Embedding of `df["Close"].diff()`: entry 0 is NaN (`none`), entry `i > 0`
is `close[i] - close[i-1]`. -/
def diffList (xs : List ℚ) : List (Option ℚ) :=
  match xs with
  | [] => []
  | _ :: rest => none :: List.zipWith (fun b a => some (b - a)) rest xs

/-- Embedding of `delta.where(delta > 0, 0)` applied entrywise: keep a delta
when it is positive, otherwise `0`. A NaN delta (the first entry of `diff`)
fails the comparison `delta > 0` in pandas, so it is also replaced by `0`. -/
def gainOf (d : Option ℚ) : ℚ :=
  match d with
  | none => 0
  | some x => if 0 < x then x else 0

/-- Embedding of `-delta.where(delta < 0, 0)` applied entrywise: a negative
delta contributes its magnitude, anything else (including the NaN first
entry, which fails `delta < 0`) contributes `0`. -/
def lossOf (d : Option ℚ) : ℚ :=
  match d with
  | none => 0
  | some x => if x < 0 then -x else 0

/-- The per-bar gain series fed to the RSI averages. -/
def gainsOf (closes : List ℚ) : List ℚ := (diffList closes).map gainOf

/-- The per-bar loss series fed to the RSI averages. -/
def lossesOf (closes : List ℚ) : List ℚ := (diffList closes).map lossOf

/-- Recursion of `Series.ewm(..., adjust=False).mean()` after the first
observation: `y_i = (1 - alpha) * y_{i-1} + alpha * x_i`. -/
def ewmRecAux (alpha : ℚ) (prev : ℚ) : List ℚ → List ℚ
  | [] => []
  | x :: xs =>
    let y := (1 - alpha) * prev + alpha * x
    y :: ewmRecAux alpha y xs

/-- Embedding of `Series.ewm(..., adjust=False).mean()` on a series with no
NaN entries: `y_0 = x_0`, then the recursion of `ewmRecAux`. -/
def ewmAdjustFalse (alpha : ℚ) : List ℚ → List ℚ
  | [] => []
  | x :: xs => x :: ewmRecAux alpha x xs

/-- Mask implementing `min_periods=mp` on a series with no NaN entries: the
entry at index `i` is defined only once `i + 1 ≥ mp` observations have been
seen. `pos` is the index of the first element of the remaining list. -/
def maskMinPeriodsAux (mp pos : Nat) : List ℚ → List (Option ℚ)
  | [] => []
  | x :: xs => (if pos + 1 < mp then none else some x) :: maskMinPeriodsAux mp (pos + 1) xs

/-- Mask a fully-defined series so that only indices with at least `mp`
observations carry a value, as `min_periods=mp` does in pandas. -/
def maskMinPeriods (mp : Nat) (xs : List ℚ) : List (Option ℚ) :=
  maskMinPeriodsAux mp 0 xs

/-- The trailing window of width `w` ending at index `i`: elements
`i + 1 - w` through `i` of the series. -/
def windowAt (w : Nat) (xs : List ℚ) (i : Nat) : List ℚ :=
  (xs.take (i + 1)).drop (i + 1 - w)

/-- Embedding of `Series.rolling(window=w).mean()` on a series with no NaN
entries: defined from index `w - 1` on (pandas defaults `min_periods` to the
window size), value the arithmetic mean of the trailing window. -/
def rollingMean (w : Nat) (xs : List ℚ) : List (Option ℚ) :=
  (List.range xs.length).map fun i =>
    if i + 1 < w then none
    else some ((windowAt w xs i).sum / (w : ℚ))

/-- Embedding of the square of `Series.rolling(window=w).std()` on a series
with no NaN entries: the sample variance of the trailing window with
`ddof = 1` (the pandas default). -/
def rollingVar (w : Nat) (xs : List ℚ) : List (Option ℚ) :=
  (List.range xs.length).map fun i =>
    if i + 1 < w then none
    else
      let ws := windowAt w xs i
      let m := ws.sum / (w : ℚ)
      some ((ws.map fun x => (x - m) ^ 2).sum / ((w : ℚ) - 1))

/-- One entry of `100 - (100 / (1 + avg_gain / avg_loss))` under IEEE-double
semantics, which is what pandas evaluates:
* `avg_loss ≠ 0`: ordinary field arithmetic, `100 - 100 / (1 + g / l)`;
* `avg_loss = 0`, `avg_gain ≠ 0`: `g / 0` is a signed infinity, `1 + rs` is
  that infinity, `100 / ±∞` is `±0`, so the RSI entry is exactly `100`;
* `avg_loss = 0`, `avg_gain = 0`: `0 / 0` is NaN and NaN propagates, so the
  entry is undefined (`none`).
An undefined average (inside the `min_periods` warm-up) gives an undefined
entry. -/
def rsiEntry (g l : Option ℚ) : Option ℚ :=
  match g, l with
  | some g, some l =>
    if l = 0 then (if g = 0 then none else some 100)
    else some (100 - 100 / (1 + g / l))
  | _, _ => none

/-- Smoothing factor of the `utils.py` RSI: pandas `ewm(com=13)` means
`alpha = 1 / (1 + com)`. -/
def wilderAlpha : ℚ := 1 / (1 + 13)

/-- Embedding of `gain.ewm(com=13, min_periods=14, adjust=False).mean()` from
`_calculate_indicators` in `utils.py`. -/
def avgGainCol (closes : List ℚ) : List (Option ℚ) :=
  maskMinPeriods 14 (ewmAdjustFalse wilderAlpha (gainsOf closes))

/-- Embedding of `loss.ewm(com=13, min_periods=14, adjust=False).mean()` from
`_calculate_indicators` in `utils.py`. -/
def avgLossCol (closes : List ℚ) : List (Option ℚ) :=
  maskMinPeriods 14 (ewmAdjustFalse wilderAlpha (lossesOf closes))

/-- The RSI column computed by `_calculate_indicators` in `utils.py`:
`100 - (100 / (1 + avg_gain / avg_loss))` entrywise. -/
def rsiCol (closes : List ℚ) : List (Option ℚ) :=
  List.zipWith rsiEntry (avgGainCol closes) (avgLossCol closes)

/-- A Bollinger-band column: the 20-bar rolling mean paired entrywise with
the 20-bar rolling sample variance, tagged with the band coefficient
(`2` for `BB_Upper`, `-2` for `BB_Lower`); see `BollEntry`. -/
def bollCol (coeff : ℚ) (closes : List ℚ) : List (Option BollEntry) :=
  List.zipWith
    (fun m v =>
      match m, v with
      | some m, some v => some { mid := m, coeff := coeff, var := v }
      | _, _ => none)
    (rollingMean 20 closes) (rollingVar 20 closes)

/-- Embedding of `_calculate_indicators` from `utils.py`: copy the frame and
assign the five derived columns computed from the close prices; the base
OHLCV rows are carried over unchanged. -/
def calcIndicators (df : StockDf) : StockDf :=
  let closes := df.rows.map Bar.Close
  { df with
    RSI := some (rsiCol closes)
    SMA5 := some (rollingMean 5 closes)
    SMA20 := some (rollingMean 20 closes)
    BB_Upper := some (bollCol 2 closes)
    BB_Lower := some (bollCol (-2) closes) }

/-- Embedding of `get_history_data` from `utils.py`. The network fetch
(`yf.Ticker(...).history(...)`) is abstracted as the `fetched` argument:
`none` models both an exception and an unavailable ticker, `some rows` the
raw OHLCV table. An empty table returns `None`; the column renaming and
timezone stripping are identity on this model (timestamps are already plain
integers); indicators are computed only when they are requested and the
table has more than 20 rows (`if include_indicators and len(df) > 20`). -/
def get_history_data (fetched : Option (List Bar)) (include_indicators : Bool) :
    Option StockDf :=
  match fetched with
  | none => none
  | some rows =>
    if rows.isEmpty then none
    else if include_indicators = true ∧ 20 < rows.length then
      some (calcIndicators (ohlcvDf rows))
    else some (ohlcvDf rows)

/-- Embedding of `calculate_rsi` from `Stock_Market.py`: the same gain / loss
split, but averaged with `rolling(window=window).mean()` (a plain rolling
mean, defined from index `window - 1` on) instead of Wilder's exponential
smoothing. -/
def calculate_rsi (window : Nat) (closes : List ℚ) : List (Option ℚ) :=
  List.zipWith rsiEntry
    (rollingMean window (gainsOf closes))
    (rollingMean window (lossesOf closes))

/-- Embedding of `calculate_percentage_change` from `utils.py`. `previous`
is an `Option` because the Python code guards `previous is None`; the guard
`previous == 0 or previous is None` is evaluated before any division. -/
def calculate_percentage_change (current : ℚ) (previous : Option ℚ) : ℚ × String :=
  match previous with
  | none => (0, "-")
  | some p =>
    if p = 0 then (0, "-")
    else
      let change := ((current - p) / p) * 100
      (change, if change > 0 then "▲" else if change < 0 then "▼" else "-")

/-- A row of the merged comparison table: `Date`, the two close columns after
the suffixing `("_Main", "_Bench")`, and the two return columns. -/
structure ReturnRow where
  Date : Int
  Close_Main : ℚ
  Close_Bench : ℚ
  Return_Main : ℚ
  Return_Bench : ℚ
deriving DecidableEq, Repr

/-- Embedding of `pd.merge(df_main[["Date", "Close"]], df_bench[["Date",
"Close"]], on="Date", suffixes=("_Main", "_Bench"), how="inner")`: for each
main row in order, every bench row (in order) with exactly the same `Date`
produces an output triple `(date, close_main, close_bench)`. This is the
pandas inner-merge semantics, including its left-major row ordering. -/
def mergeInner (dfMain dfBench : List Bar) : List (Int × ℚ × ℚ) :=
  dfMain.flatMap fun r =>
    (dfBench.filter fun s => s.Date = r.Date).map fun s => (r.Date, r.Close, s.Close)

/-- Embedding of `calculate_returns` from `utils.py`: inner-merge on `Date`,
return `None` on an empty merge, read the two base prices from the first
merged row, return `None` when either base is zero, otherwise append the two
normalized return columns `(close / base - 1) * 100`. -/
def calculate_returns (dfMain dfBench : List Bar) : Option (List ReturnRow) :=
  match mergeInner dfMain dfBench with
  | [] => none
  | (d0, cm0, cb0) :: rest =>
    if cm0 = 0 ∨ cb0 = 0 then none
    else
      some (((d0, cm0, cb0) :: rest).map fun t =>
        { Date := t.1, Close_Main := t.2.1, Close_Bench := t.2.2,
          Return_Main := (t.2.1 / cm0 - 1) * 100,
          Return_Bench := (t.2.2 / cb0 - 1) * 100 })

/-- Outcome of the 績效比較 (performance-comparison) block of
`Stock_Market.py`, lines 412-458: the three user-visible branches. -/
inductive CompareOutcome where
  | fetchFailed
  | timeframeMismatch
  | chart (t : List ReturnRow)
deriving DecidableEq, Repr

/-- Embedding of the comparison block of `Stock_Market.py` (mode 績效比較):
if either fetch returned `None` the user sees `DATA FETCH FAILED`; otherwise
the two tables are inner-merged on `Date`; an empty merge shows `TIMEFRAME
MISMATCH ERROR`; otherwise the return columns are computed from the first
merged row's prices (this block has no zero-base guard; rational division
totalizes `x / 0` as `0` where the floats would give `±inf`/NaN — no theorem
below depends on a value computed with a zero base) and charted. -/
def comparisonBlock (dfMain dfBench : Option (List Bar)) : CompareOutcome :=
  match dfMain, dfBench with
  | some dm, some db =>
    match mergeInner dm db with
    | [] => CompareOutcome.timeframeMismatch
    | (d0, cm0, cb0) :: rest =>
      CompareOutcome.chart (((d0, cm0, cb0) :: rest).map fun t =>
        { Date := t.1, Close_Main := t.2.1, Close_Bench := t.2.2,
          Return_Main := (t.2.1 / cm0 - 1) * 100,
          Return_Bench := (t.2.2 / cb0 - 1) * 100 })
  | _, _ => CompareOutcome.fetchFailed

/-! ### Concrete example data used by witnesses and counterexamples -/

/-- Concrete series used in examples: sixteen strictly rising closes. -/
def monotoneCloses : List ℚ := [1, 2, 3, 4, 5, 6, 7, 8, 9, 10, 11, 12, 13, 14, 15, 16]

/-- Concrete series whose RSI differs between the Wilder (`utils.py`) and
rolling-mean (`Stock_Market.py`) implementations: fifteen rising closes
followed by a drop. -/
def divergingCloses : List ℚ := [1, 2, 3, 4, 5, 6, 7, 8, 9, 10, 11, 12, 13, 14, 15, 10]

/-- Helper for concrete examples: a bar whose four prices all equal `c`. -/
def flatBar (d : Int) (c : ℚ) : Bar :=
  { Date := d, Open := c, High := c, Low := c, Close := c, Volume := 0 }

/-- A concrete sixteen-bar OHLCV table with strictly rising closes. -/
def risingDf : StockDf :=
  ohlcvDf ((List.range 16).map fun i => flatBar i ((i : ℚ) + 1))

/-- The RSI column of `risingDf`: thirteen warm-up NaNs, then saturation. -/
def risingRsiCol : List (Option ℚ) :=
  [none, none, none, none, none, none, none, none, none, none, none, none,
   none, some 100, some 100, some 100]

/-- Helper for concrete examples: an `n`-bar OHLCV series with distinct dates
and rising prices. -/
def mkBars (n : Nat) : List Bar :=
  (List.range n).map fun i => flatBar i ((i : ℚ) + 1)

/-- The main series of the specification's concrete comparison scenario. -/
def cmpMain : List Bar :=
  List.zipWith flatBar [0, 1, 2, 3, 4] [100, 102, 101, 105, 110]

/-- The benchmark series of the specification's concrete comparison
scenario. -/
def cmpBench : List Bar :=
  List.zipWith flatBar [0, 1, 2, 3, 4] [50, 101 / 2, 49, 51, 52]

/-- The return table the normalizer produces on the scenario above. -/
def cmpTable : List ReturnRow :=
  [⟨0, 100, 50, 0, 0⟩, ⟨1, 102, 101 / 2, 2, 1⟩, ⟨2, 101, 49, 1, -2⟩,
   ⟨3, 105, 51, 5, 2⟩, ⟨4, 110, 52, 10, 4⟩]

/-! ### Helper lemmas -/

lemma maskMinPeriodsAux_get?_some_mem {mp pos : Nat} {xs : List ℚ} {i : Nat} {g : ℚ}
    (h : (maskMinPeriodsAux mp pos xs).get? i = some (some g)) : g ∈ xs := by
  induction xs generalizing pos i with
  | nil => simp [maskMinPeriodsAux] at h
  | cons x xs ih =>
    cases i with
    | zero =>
      simp only [maskMinPeriodsAux, List.get?_cons_zero] at h
      by_cases hc : pos + 1 < mp
      · simp [hc] at h
      · simp [hc] at h
        simp [h]
    | succ n =>
      simp only [maskMinPeriodsAux, List.get?_cons_succ] at h
      exact List.mem_cons_of_mem x (ih h)

lemma ewmRecAux_mem_nonneg {al : ℚ} (h0 : 0 ≤ al) (h1 : al ≤ 1) :
    ∀ (prev : ℚ), 0 ≤ prev → ∀ (xs : List ℚ), (∀ x ∈ xs, 0 ≤ x) →
      ∀ y ∈ ewmRecAux al prev xs, 0 ≤ y := by
  intro prev hp xs
  induction xs generalizing prev with
  | nil => intro _ y hy; simp [ewmRecAux] at hy
  | cons x xs ih =>
    intro hxs y hy
    have hx : 0 ≤ x := hxs x (List.mem_cons_self x xs)
    have hnext : 0 ≤ (1 - al) * prev + al * x :=
      add_nonneg (mul_nonneg (by linarith) hp) (mul_nonneg h0 hx)
    simp only [ewmRecAux, List.mem_cons] at hy
    rcases hy with rfl | hy
    · exact hnext
    · exact ih _ hnext (fun z hz => hxs z (List.mem_cons_of_mem x hz)) y hy

lemma ewmAdjustFalse_mem_nonneg {al : ℚ} (h0 : 0 ≤ al) (h1 : al ≤ 1)
    {xs : List ℚ} (hxs : ∀ x ∈ xs, 0 ≤ x) :
    ∀ y ∈ ewmAdjustFalse al xs, 0 ≤ y := by
  cases xs with
  | nil => intro y hy; simp [ewmAdjustFalse] at hy
  | cons x xs =>
    intro y hy
    have hx : 0 ≤ x := hxs x (List.mem_cons_self x xs)
    simp only [ewmAdjustFalse, List.mem_cons] at hy
    rcases hy with rfl | hy
    · exact hx
    · exact ewmRecAux_mem_nonneg h0 h1 x hx xs
        (fun z hz => hxs z (List.mem_cons_of_mem x hz)) y hy

lemma gainsOf_mem_nonneg {closes : List ℚ} : ∀ x ∈ gainsOf closes, 0 ≤ x := by
  intro x hx
  rcases List.mem_map.mp hx with ⟨d, _, rfl⟩
  cases d with
  | none => simp [gainOf]
  | some v =>
    simp only [gainOf]
    split <;> [linarith; rfl]

lemma lossesOf_mem_nonneg {closes : List ℚ} : ∀ x ∈ lossesOf closes, 0 ≤ x := by
  intro x hx
  rcases List.mem_map.mp hx with ⟨d, _, rfl⟩
  cases d with
  | none => simp [lossOf]
  | some v =>
    simp only [lossOf]
    split <;> [linarith; rfl]

lemma wilderAlpha_nonneg : 0 ≤ wilderAlpha := by norm_num [wilderAlpha]

lemma wilderAlpha_le_one : wilderAlpha ≤ 1 := by norm_num [wilderAlpha]

lemma avgGainCol_get?_some_nonneg {closes : List ℚ} {i : Nat} {g : ℚ}
    (h : (avgGainCol closes).get? i = some (some g)) : 0 ≤ g := by
  have hmem := maskMinPeriodsAux_get?_some_mem h
  exact ewmAdjustFalse_mem_nonneg wilderAlpha_nonneg wilderAlpha_le_one
    gainsOf_mem_nonneg g hmem

lemma avgLossCol_get?_some_nonneg {closes : List ℚ} {i : Nat} {l : ℚ}
    (h : (avgLossCol closes).get? i = some (some l)) : 0 ≤ l := by
  have hmem := maskMinPeriodsAux_get?_some_mem h
  exact ewmAdjustFalse_mem_nonneg wilderAlpha_nonneg wilderAlpha_le_one
    lossesOf_mem_nonneg l hmem

/-! ### Claim theorems: RSI (C2, C7, C8) -/

/-- C2: for every close-price series and every index at which the smoothed
average loss is zero, the RSI computation of `utils.py` yields exactly 100 at
every defined entry of that index; moreover whenever the average gain there is
defined and nonzero, the entry is defined and equal to 100. The embedding is a
total function, so no division-by-zero error is raised or propagated. -/
theorem rsi_saturates_at_100_when_avg_loss_zero (closes : List ℚ) (i : Nat)
    (hloss : (avgLossCol closes).get? i = some (some 0)) :
    (∀ r, (rsiCol closes).get? i = some (some r) → r = 100) ∧
    (∀ g, (avgGainCol closes).get? i = some (some g) → g ≠ 0 →
      (rsiCol closes).get? i = some (some 100)) := by
  constructor
  · intro r hr
    rcases (List.get?_zipWith_eq_some rsiEntry _ _ _ _).mp hr with ⟨x, y, hx, hy, hxy⟩
    rw [hloss] at hy
    cases hy
    cases x with
    | none => simp [rsiEntry] at hxy
    | some g =>
      by_cases hg : g = 0
      · simp [rsiEntry, hg] at hxy
      · simp [rsiEntry, hg] at hxy
        exact hxy.symm
  · intro g hg hgne
    rw [rsiCol, List.get?_zipWith', hg, hloss]
    simp [rsiEntry, hgne]

/-- C7: every defined RSI entry of the indicator table computed by
`_calculate_indicators` on an input with at least 15 bars lies in `[0, 100]`. -/
theorem rsi_bounded_between_0_and_100 (df : StockDf)
    (hlen : 15 ≤ df.rows.length) (col : List (Option ℚ))
    (hcol : (calcIndicators df).RSI = some col) (i : Nat) (r : ℚ)
    (hr : col.get? i = some (some r)) : 0 ≤ r ∧ r ≤ 100 := by
  have hcol' : col = rsiCol (df.rows.map Bar.Close) := by
    have : (calcIndicators df).RSI = some (rsiCol (df.rows.map Bar.Close)) := rfl
    rw [this] at hcol
    exact (Option.some.inj hcol).symm
  subst hcol'
  rcases (List.get?_zipWith_eq_some rsiEntry _ _ _ _).mp hr with ⟨x, y, hx, hy, hxy⟩
  cases x with
  | none => simp [rsiEntry] at hxy
  | some g =>
    cases y with
    | none => simp [rsiEntry] at hxy
    | some l =>
      have hgpos : 0 ≤ g := avgGainCol_get?_some_nonneg hx
      have hlpos : 0 ≤ l := avgLossCol_get?_some_nonneg hy
      by_cases hl : l = 0
      · by_cases hgz : g = 0
        · simp [rsiEntry, hl, hgz] at hxy
        · simp [rsiEntry, hl, hgz] at hxy
          constructor <;> simp [← hxy]
      · simp only [rsiEntry, if_neg hl] at hxy
        have hl' : 0 < l := lt_of_le_of_ne hlpos (Ne.symm hl)
        have hrs : 0 ≤ g / l := div_nonneg hgpos (le_of_lt hl')
        have hden : (1 : ℚ) ≤ 1 + g / l := by linarith
        have hq1 : 0 < 100 / (1 + g / l) := div_pos (by norm_num) (by linarith)
        have hq2 : 100 / (1 + g / l) ≤ 100 :=
          div_le_self (by norm_num) hden
        have hxy' : 100 - 100 / (1 + g / l) = r := Option.some.inj hxy
        constructor <;> linarith

set_option maxRecDepth 4000

/-- C8: the `utils.py` RSI is Wilder's smoothing — an exponential moving
average of gains and losses with `alpha = 1/14` (`com = 13`) — and it is a
different function from the plain rolling-mean RSI of `Stock_Market.py`: on a
concrete sixteen-bar series the two produce different values at index 15,
past the initial window. -/
theorem rsi_wilder_vs_rolling_divergence :
    wilderAlpha = 1 / 14 ∧
    (rsiCol divergingCloses).get? 15 ≠ (calculate_rsi 14 divergingCloses).get? 15 := by
  constructor
  · norm_num [wilderAlpha]
  · with_unfolding_all decide

/-- Witness for `rsi_saturates_at_100_when_avg_loss_zero`: on the concrete
strictly rising sixteen-bar series the average loss at index 14 is a defined
zero, and the instantiated theorem produces the saturated RSI value 100. -/
theorem rsi_saturates_at_100_witness :
    (avgLossCol monotoneCloses).get? 14 = some (some 0) ∧
    (rsiCol monotoneCloses).get? 14 = some (some 100) ∧
    (100 : ℚ) = 100 :=
  ⟨by with_unfolding_all decide,
   by with_unfolding_all decide,
   (rsi_saturates_at_100_when_avg_loss_zero monotoneCloses 14
      (by with_unfolding_all decide)).1 100
      (by with_unfolding_all decide)⟩

/-- Witness for `rsi_bounded_between_0_and_100`: the hypotheses hold for the
concrete sixteen-bar rising table at index 13 with value 100, and the
instantiated theorem gives the bounds. -/
theorem rsi_bounded_witness :
    15 ≤ risingDf.rows.length ∧
    (calcIndicators risingDf).RSI = some risingRsiCol ∧
    risingRsiCol.get? 13 = some (some 100) ∧
    (0 ≤ (100 : ℚ) ∧ (100 : ℚ) ≤ 100) :=
  ⟨by with_unfolding_all decide,
   by with_unfolding_all decide,
   by with_unfolding_all decide,
   rsi_bounded_between_0_and_100 risingDf (by with_unfolding_all decide)
     risingRsiCol (by with_unfolding_all decide) 13 100
     (by with_unfolding_all decide)⟩

/-! ### Claim theorems: frame and formatting (C9, C10) -/

/-- C9: the indicator computation never modifies the base OHLCV columns —
every base column of the output of `_calculate_indicators` equals, row for
row, the corresponding input column, and the only change is that the five
derived indicator columns are added (each computed from the close prices). -/
theorem indicators_preserve_base_columns (df : StockDf) :
    (calcIndicators df).rows = df.rows ∧
    (calcIndicators df).rows.map Bar.Date = df.rows.map Bar.Date ∧
    (calcIndicators df).rows.map Bar.Open = df.rows.map Bar.Open ∧
    (calcIndicators df).rows.map Bar.High = df.rows.map Bar.High ∧
    (calcIndicators df).rows.map Bar.Low = df.rows.map Bar.Low ∧
    (calcIndicators df).rows.map Bar.Close = df.rows.map Bar.Close ∧
    (calcIndicators df).rows.map Bar.Volume = df.rows.map Bar.Volume ∧
    (calcIndicators df).RSI = some (rsiCol (df.rows.map Bar.Close)) ∧
    (calcIndicators df).SMA5 = some (rollingMean 5 (df.rows.map Bar.Close)) ∧
    (calcIndicators df).SMA20 = some (rollingMean 20 (df.rows.map Bar.Close)) ∧
    (calcIndicators df).BB_Upper = some (bollCol 2 (df.rows.map Bar.Close)) ∧
    (calcIndicators df).BB_Lower = some (bollCol (-2) (df.rows.map Bar.Close)) :=
  ⟨rfl, rfl, rfl, rfl, rfl, rfl, rfl, rfl, rfl, rfl, rfl, rfl⟩

/-- C10: `calculate_percentage_change` is total and its division is guarded:
a `None` or zero `previous` returns exactly `(0, "-")` without dividing, and
a nonzero `previous` returns `((current - previous) / previous) * 100` with
the direction marker determined by the sign of the change. -/
theorem percentage_change_total_and_guarded (current : ℚ) (previous : Option ℚ) :
    (previous = none → calculate_percentage_change current previous = (0, "-")) ∧
    (previous = some 0 → calculate_percentage_change current previous = (0, "-")) ∧
    (∀ p, previous = some p → p ≠ 0 →
      calculate_percentage_change current previous =
        (((current - p) / p) * 100,
          if ((current - p) / p) * 100 > 0 then "▲"
          else if ((current - p) / p) * 100 < 0 then "▼" else "-")) := by
  refine ⟨?_, ?_, ?_⟩
  · rintro rfl; rfl
  · rintro rfl; simp [calculate_percentage_change]
  · rintro p rfl hp
    simp [calculate_percentage_change, hp]

/-- Witness for `percentage_change_total_and_guarded` at the concrete input
`current = 110`, `previous = 100`: the change is `+10 %` and the direction
marker is the up arrow. -/
theorem percentage_change_witness :
    calculate_percentage_change 110 (some 100) = (10, "▲") := by
  have h := (percentage_change_total_and_guarded 110 (some 100)).2.2 100 rfl
    (by norm_num)
  rw [h]
  norm_num

/-! ### Claim theorems: indicator-column gating (C1) -/

/-- C1 (counterexample to the claim as stated): feeding a series with exactly
20 bars to `get_history_data` with indicators enabled yields a frame with NO
Bollinger columns (nor any other indicator column), because the code guards
the computation with `len(df) > 20`, not `len(df) >= 20`. This refutes the
part of the claim asserting that a series with exactly 20 bars does yield
the Bollinger columns. -/
theorem indicator_columns_at_20_bars_counterexample :
    (mkBars 20).length = 20 ∧
    get_history_data (some (mkBars 20)) true = some (ohlcvDf (mkBars 20)) ∧
    (ohlcvDf (mkBars 20)).BB_Upper = none ∧
    (ohlcvDf (mkBars 20)).BB_Lower = none := by
  refine ⟨by with_unfolding_all decide, ?_, rfl, rfl⟩
  with_unfolding_all rfl

/-- C1 (amended): with indicators enabled, the indicator columns (RSI, SMA5,
SMA20, BB_Upper, BB_Lower) are omitted entirely whenever the series has at
most 20 bars — in particular for 19 and for 20 bars — and are all present
as soon as the series has more than 20 bars; the cutoff is 21 bars, not 20. -/
theorem indicator_columns_threshold (rows : List Bar) (df : StockDf)
    (h : get_history_data (some rows) true = some df) :
    (rows.length ≤ 20 →
      df.RSI = none ∧ df.SMA5 = none ∧ df.SMA20 = none ∧
      df.BB_Upper = none ∧ df.BB_Lower = none) ∧
    (20 < rows.length →
      df.RSI.isSome ∧ df.SMA5.isSome ∧ df.SMA20.isSome ∧
      df.BB_Upper.isSome ∧ df.BB_Lower.isSome) := by
  simp only [get_history_data] at h
  by_cases hemp : rows.isEmpty
  · simp [hemp] at h
  · rw [if_neg (by simp [hemp])] at h
    by_cases hlen : 20 < rows.length
    · rw [if_pos ⟨trivial, hlen⟩] at h
      have hdf : df = calcIndicators (ohlcvDf rows) := (Option.some.inj h).symm
      subst hdf
      exact ⟨fun hle => absurd hlen (by omega), fun _ => ⟨rfl, rfl, rfl, rfl, rfl⟩⟩
    · rw [if_neg (fun hc => hlen hc.2)] at h
      have hdf : df = ohlcvDf rows := (Option.some.inj h).symm
      subst hdf
      exact ⟨fun _ => ⟨rfl, rfl, rfl, rfl, rfl⟩, fun hgt => absurd hgt hlen⟩

/-- Witness for `indicator_columns_threshold` at a concrete 21-bar series:
the fetch succeeds, the gate fires, and all five indicator columns are
present. -/
theorem indicator_columns_threshold_witness :
    get_history_data (some (mkBars 21)) true =
      some (calcIndicators (ohlcvDf (mkBars 21))) ∧
    20 < (mkBars 21).length ∧
    ((calcIndicators (ohlcvDf (mkBars 21))).RSI.isSome ∧
     (calcIndicators (ohlcvDf (mkBars 21))).SMA5.isSome ∧
     (calcIndicators (ohlcvDf (mkBars 21))).SMA20.isSome ∧
     (calcIndicators (ohlcvDf (mkBars 21))).BB_Upper.isSome ∧
     (calcIndicators (ohlcvDf (mkBars 21))).BB_Lower.isSome) :=
  ⟨by with_unfolding_all rfl,
   by with_unfolding_all decide,
   (indicator_columns_threshold (mkBars 21) (calcIndicators (ohlcvDf (mkBars 21)))
      (by with_unfolding_all rfl)).2 (by with_unfolding_all decide)⟩

/-! ### Helper lemmas for the return normalizer -/

lemma mem_mergeInner_dates {dfMain dfBench : List Bar} {t : Int × ℚ × ℚ}
    (h : t ∈ mergeInner dfMain dfBench) :
    t.1 ∈ dfMain.map Bar.Date ∧ t.1 ∈ dfBench.map Bar.Date := by
  rcases List.mem_flatMap.mp h with ⟨r, hr, ht⟩
  rcases List.mem_map.mp ht with ⟨s, hs, rfl⟩
  rcases List.mem_filter.mp hs with ⟨hsb, hdate⟩
  have hd : s.Date = r.Date := by simpa using hdate
  exact ⟨List.mem_map.mpr ⟨r, hr, rfl⟩, List.mem_map.mpr ⟨s, hsb, hd⟩⟩

lemma mergeInner_mem_of_dates {dfMain dfBench : List Bar} {r s : Bar}
    (hr : r ∈ dfMain) (hs : s ∈ dfBench) (hd : s.Date = r.Date) :
    (r.Date, r.Close, s.Close) ∈ mergeInner dfMain dfBench :=
  List.mem_flatMap.mpr
    ⟨r, hr, List.mem_map.mpr ⟨s, List.mem_filter.mpr ⟨hs, by simp [hd]⟩, rfl⟩⟩

lemma mergeInner_eq_nil_of_disjoint {dfMain dfBench : List Bar}
    (h : ∀ d, d ∈ dfMain.map Bar.Date → d ∉ dfBench.map Bar.Date) :
    mergeInner dfMain dfBench = [] := by
  rw [List.eq_nil_iff_forall_not_mem]
  intro t ht
  have hd := mem_mergeInner_dates ht
  exact h t.1 hd.1 hd.2

lemma calculate_returns_eq_some {dfMain dfBench : List Bar} {t : List ReturnRow}
    (h : calculate_returns dfMain dfBench = some t) :
    ∃ d0 cm0 cb0 rest, mergeInner dfMain dfBench = (d0, cm0, cb0) :: rest ∧
      cm0 ≠ 0 ∧ cb0 ≠ 0 ∧
      t = ((d0, cm0, cb0) :: rest).map fun tr =>
        { Date := tr.1, Close_Main := tr.2.1, Close_Bench := tr.2.2,
          Return_Main := (tr.2.1 / cm0 - 1) * 100,
          Return_Bench := (tr.2.2 / cb0 - 1) * 100 } := by
  unfold calculate_returns at h
  split at h
  next hm => simp at h
  next d0 cm0 cb0 rest hm =>
    split at h
    next hz => simp at h
    next hz =>
      push_neg at hz
      exact ⟨d0, cm0, cb0, rest, hm, hz.1, hz.2, (Option.some.inj h).symm⟩

lemma mergeInner_head_min {dfBench : List Bar} :
    ∀ {dfMain : List Bar} {d0 : Int} {p : ℚ × ℚ} {rest : List (Int × ℚ × ℚ)},
      mergeInner dfMain dfBench = (d0, p) :: rest →
      List.Pairwise (· ≤ ·) (dfMain.map Bar.Date) →
      ∀ d, d ∈ dfMain.map Bar.Date → d ∈ dfBench.map Bar.Date → d0 ≤ d := by
  intro dfMain
  induction dfMain with
  | nil => intro d0 p rest hm; simp [mergeInner] at hm
  | cons m ms ih =>
    intro d0 p rest hm hsort d hdm hdb
    rw [List.map_cons, List.pairwise_cons] at hsort
    rw [List.map_cons, List.mem_cons] at hdm
    have hm' : ((dfBench.filter fun s => s.Date = m.Date).map
        fun s => (m.Date, m.Close, s.Close)) ++ mergeInner ms dfBench =
        (d0, p) :: rest := by
      simpa [mergeInner] using hm
    cases hfil : dfBench.filter fun s => s.Date = m.Date with
    | nil =>
      rw [hfil, List.map_nil, List.nil_append] at hm'
      rcases hdm with rfl | hdm
      · rcases List.mem_map.mp hdb with ⟨s, hs, hsd⟩
        have : s ∈ dfBench.filter fun s => s.Date = m.Date :=
          List.mem_filter.mpr ⟨hs, by simp [hsd]⟩
        rw [hfil] at this
        simp at this
      · exact ih hm' hsort.2 d hdm hdb
    | cons s ss =>
      rw [hfil, List.map_cons, List.cons_append] at hm'
      have hd0 : d0 = m.Date := by
        have := (List.cons.injEq _ _ _ _).mp hm'
        exact congrArg Prod.fst this.1.symm
      subst hd0
      rcases hdm with rfl | hdm
      · exact le_refl _
      · exact hsort.1 d hdm

/-! ### Claim theorems: return normalizer (C3, C4, C5, C6) -/

/-- C3: whenever `calculate_returns` succeeds, its result is nonempty and the
first row has `Return_Main = 0` and `Return_Bench = 0` exactly; moreover,
when the main series is chronologically ordered, the first row's date is the
earliest date observed in both inputs, so both return series are rebased to
the earliest jointly observed date. -/
theorem returns_rebased_to_first_common_date (dfMain dfBench : List Bar)
    (t : List ReturnRow) (h : calculate_returns dfMain dfBench = some t) :
    ∃ r rest, t = r :: rest ∧ r.Return_Main = 0 ∧ r.Return_Bench = 0 ∧
      (List.Pairwise (· ≤ ·) (dfMain.map Bar.Date) →
        ∀ d, d ∈ dfMain.map Bar.Date → d ∈ dfBench.map Bar.Date → r.Date ≤ d) := by
  rcases calculate_returns_eq_some h with ⟨d0, cm0, cb0, rest, hm, hcm, hcb, ht⟩
  subst ht
  rw [List.map_cons]
  refine ⟨_, _, rfl, ?_, ?_, ?_⟩
  · show (cm0 / cm0 - 1) * 100 = 0
    rw [div_self hcm]
    ring
  · show (cb0 / cb0 - 1) * 100 = 0
    rw [div_self hcb]
    ring
  · intro hsort d hdm hdb
    exact mergeInner_head_min hm hsort d hdm hdb

/-- Witness for `returns_rebased_to_first_common_date` at a concrete pair of
two-bar series sharing both dates. -/
theorem returns_rebased_witness :
    calculate_returns [flatBar 0 4, flatBar 1 8] [flatBar 0 2, flatBar 1 1] =
      some [⟨0, 4, 2, 0, 0⟩, ⟨1, 8, 1, 100, -50⟩] ∧
    (∃ r rest, ([⟨0, 4, 2, 0, 0⟩, ⟨1, 8, 1, 100, -50⟩] : List ReturnRow) = r :: rest ∧
      r.Return_Main = 0 ∧ r.Return_Bench = 0 ∧
      (List.Pairwise (· ≤ ·) (([flatBar 0 4, flatBar 1 8] : List Bar).map Bar.Date) →
        ∀ d, d ∈ ([flatBar 0 4, flatBar 1 8] : List Bar).map Bar.Date →
          d ∈ ([flatBar 0 2, flatBar 1 1] : List Bar).map Bar.Date → r.Date ≤ d)) :=
  ⟨by with_unfolding_all decide,
   returns_rebased_to_first_common_date _ _ _ (by with_unfolding_all decide)⟩

/-- C4: when the first jointly observed close price is zero in either series,
`calculate_returns` fails (returns `None`) and therefore produces no numeric
return rows — in particular no infinite or NaN return value is ever emitted,
because the division is never performed. -/
theorem returns_none_on_zero_base (dfMain dfBench : List Bar)
    (d0 : Int) (cm0 cb0 : ℚ) (rest : List (Int × ℚ × ℚ))
    (hm : mergeInner dfMain dfBench = (d0, cm0, cb0) :: rest)
    (hz : cm0 = 0 ∨ cb0 = 0) :
    calculate_returns dfMain dfBench = none := by
  unfold calculate_returns
  rw [hm]
  exact if_pos hz

/-- Witness for `returns_none_on_zero_base`: a main series whose first (and
jointly first) close is zero makes the normalizer return `None`. -/
theorem returns_none_on_zero_base_witness :
    mergeInner [flatBar 0 0, flatBar 1 5] [flatBar 0 10, flatBar 1 11] =
      (0, 0, 10) :: [(1, 5, 11)] ∧
    calculate_returns [flatBar 0 0, flatBar 1 5] [flatBar 0 10, flatBar 1 11] = none :=
  ⟨by with_unfolding_all decide,
   returns_none_on_zero_base _ _ 0 0 10 [(1, 5, 11)]
     (by with_unfolding_all decide) (Or.inl rfl)⟩

/-- C5: on two series with disjoint timestamp sets, the return normalizer
fails (`calculate_returns` returns `None`, and the comparison block of
`Stock_Market.py` reports the timeframe-mismatch condition, which is a
different outcome from the fetch-failed condition); the normalizer never
returns an empty-but-successful table (every successful result is nonempty). -/
theorem returns_calendar_mismatch_on_disjoint_dates (dfMain dfBench : List Bar)
    (hdisj : ∀ d, d ∈ dfMain.map Bar.Date → d ∉ dfBench.map Bar.Date) :
    calculate_returns dfMain dfBench = none ∧
    comparisonBlock (some dfMain) (some dfBench) = CompareOutcome.timeframeMismatch ∧
    CompareOutcome.timeframeMismatch ≠ CompareOutcome.fetchFailed ∧
    (∀ m b tbl, calculate_returns m b = some tbl → tbl ≠ []) := by
  have hnil := mergeInner_eq_nil_of_disjoint hdisj
  refine ⟨?_, ?_, by simp, ?_⟩
  · unfold calculate_returns
    rw [hnil]
  · simp only [comparisonBlock]
    rw [hnil]
  · intro m b tbl htbl
    rcases calculate_returns_eq_some htbl with ⟨d0, cm0, cb0, rest, _, _, _, ht⟩
    subst ht
    simp

/-- Witness for `returns_calendar_mismatch_on_disjoint_dates` at a concrete
pair of single-bar series with different dates. -/
theorem returns_calendar_mismatch_witness :
    calculate_returns [flatBar 0 1] [flatBar 5 2] = none ∧
    comparisonBlock (some [flatBar 0 1]) (some [flatBar 5 2]) =
      CompareOutcome.timeframeMismatch :=
  ⟨(returns_calendar_mismatch_on_disjoint_dates [flatBar 0 1] [flatBar 5 2]
      (by intro d hd hb; simp [flatBar] at hd hb; omega)).1,
   (returns_calendar_mismatch_on_disjoint_dates [flatBar 0 1] [flatBar 5 2]
      (by intro d hd hb; simp [flatBar] at hd hb; omega)).2.1⟩

/-- C6: whenever `calculate_returns` succeeds, every row of its result
carries a timestamp present in both inputs, and every timestamp present in
both inputs appears among the result's timestamps — the merge is an exact
inner join on `Date`, with dates present in only one series excluded. -/
theorem returns_inner_join_dates (dfMain dfBench : List Bar)
    (t : List ReturnRow) (h : calculate_returns dfMain dfBench = some t) :
    (∀ r ∈ t, r.Date ∈ dfMain.map Bar.Date ∧ r.Date ∈ dfBench.map Bar.Date) ∧
    (∀ d, d ∈ dfMain.map Bar.Date → d ∈ dfBench.map Bar.Date →
      d ∈ t.map ReturnRow.Date) := by
  rcases calculate_returns_eq_some h with ⟨d0, cm0, cb0, rest, hm, hcm, hcb, ht⟩
  subst ht
  constructor
  · intro r hr
    rcases List.mem_map.mp hr with ⟨tr, htr, rfl⟩
    rw [← hm] at htr
    exact mem_mergeInner_dates htr
  · intro d hdm hdb
    rcases List.mem_map.mp hdm with ⟨r, hr, rfl⟩
    rcases List.mem_map.mp hdb with ⟨s, hs, hsd⟩
    have hmem : (r.Date, r.Close, s.Close) ∈ mergeInner dfMain dfBench :=
      mergeInner_mem_of_dates hr hs hsd
    rw [hm] at hmem
    exact List.mem_map.mpr
      ⟨{ Date := r.Date, Close_Main := r.Close, Close_Bench := s.Close,
         Return_Main := (r.Close / cm0 - 1) * 100,
         Return_Bench := (s.Close / cb0 - 1) * 100 },
       List.mem_map.mpr ⟨(r.Date, r.Close, s.Close), hmem, rfl⟩, rfl⟩

/-- Witness for `returns_inner_join_dates` on the specification's concrete
scenario (five shared trading days). -/
theorem returns_inner_join_dates_witness :
    calculate_returns cmpMain cmpBench = some cmpTable ∧
    ((∀ r ∈ cmpTable, r.Date ∈ cmpMain.map Bar.Date ∧ r.Date ∈ cmpBench.map Bar.Date) ∧
     (∀ d, d ∈ cmpMain.map Bar.Date → d ∈ cmpBench.map Bar.Date →
       d ∈ cmpTable.map ReturnRow.Date)) :=
  ⟨by with_unfolding_all decide,
   returns_inner_join_dates cmpMain cmpBench cmpTable (by with_unfolding_all decide)⟩
